import Mathlib

/-!
Shallow embedding of the privesc-detector detection engine.

Source modules embedded here:
  src/privesc_detector/models/events.py       (event model)
  src/privesc_detector/detections/base.py     (DetectionResult)
  src/privesc_detector/detections/privilege_escalation.py
  src/privesc_detector/detections/auth_burst.py
  src/privesc_detector/detections/auth_chain.py
  src/privesc_detector/detections/keytab_smuggling.py
  src/privesc_detector/graph/builder.py
  src/privesc_detector/enrichment/vault.py, critical_accounts.py, cache.py

Conventions of the embedding:
  * Python floats are modelled as rationals (the detectors only subtract,
    compare against decimal constants, and round to 4 places).
  * Python datetimes are modelled as integer second offsets; timezone
    normalisation (`ts.replace(tzinfo=utc)` on naive datetimes) does not
    change the instant an aware comparison sees, so it is the identity here.
  * Python dicts whose keys are dynamic (graph node/edge attribute dicts,
    alert metadata) are modelled as insertion-ordered association lists over
    a small dynamic value type `MetaVal`; a missing key is `Option.none`,
    and a Python `KeyError` is an `Except.error`.
  * Mutable state (the burst window dict) is passed explicitly: a mutating
    method returns the new state.
-/

/-- Dynamic value type standing in for the Python values stored in
attribute/metadata dicts. -/
inductive MetaVal where
  | str : String → MetaVal
  | int : Int → MetaVal
  | rat : ℚ → MetaVal
  | bool : Bool → MetaVal
  | strList : List String → MetaVal
  | none : MetaVal
deriving DecidableEq, Repr

/-- One flattened auth event record (models.events.BaseAuthEvent together
with the variant fields of AuthenticationEvent / SessionEvent; the
discriminator is `event_category`, `keytab_path` is populated only on
authentication events). -/
structure AuthEvent where
  id : String
  src_account_id : String
  src_host_id : String
  dst_account_id : String
  dst_host_id : String
  mechanism : String
  src_privilege : ℚ
  dst_privilege : ℚ
  timestamp : Int
  session_id : Option String
  host_id : String
  raw_source : String
  event_category : String
  keytab_path : Option String
deriving DecidableEq, Repr

/-- Computed field: src_node_id = "{src_account_id}|{src_host_id}". -/
def AuthEvent.src_node_id (e : AuthEvent) : String :=
  e.src_account_id ++ "|" ++ e.src_host_id

/-- Computed field: dst_node_id = "{dst_account_id}|{dst_host_id}". -/
def AuthEvent.dst_node_id (e : AuthEvent) : String :=
  e.dst_account_id ++ "|" ++ e.dst_host_id

/-- detections/base.py DetectionResult. -/
structure DetectionResult where
  detection_type : String
  severity : String
  edge_ids : List String
  node_ids : List String
  host_id : String
  description : String
  metadata : List (String × MetaVal)
deriving DecidableEq, Repr

/-! ### Python rounding

`round(x, 4)` on Python floats rounds half to even; embedded on rationals. -/

/-- Round a rational to the nearest integer, ties to even (Python round). -/
def pyRoundInt (x : ℚ) : ℤ :=
  let f : ℤ := ⌊x⌋
  let frac : ℚ := x - (f : ℚ)
  if frac < 1/2 then f
  else if 1/2 < frac then f + 1
  else if f % 2 = 0 then f else f + 1

/-- Python round(x, 4). -/
def pyRound4 (x : ℚ) : ℚ := (pyRoundInt (x * 10000) : ℚ) / 10000

/-! ## Detection A — privilege escalation
(src/privesc_detector/detections/privilege_escalation.py) -/

/-- config.py PrivEscConfig. -/
structure PrivEscConfig where
  enabled : Bool
deriving DecidableEq, Repr

namespace privilege_escalation

/-- The severity ladder on the privilege delta (source helper `_severity`). -/
def severityOfDelta (delta : ℚ) : String :=
  if delta < 2/10 then "low"
  else if delta < 5/10 then "medium"
  else if delta < 8/10 then "high"
  else "critical"

/-- privilege_escalation.detect.  The f-string description is abstracted: the
two-decimal float formatting is replaced by `toString` of the rationals, which
no claim inspects. -/
def detect (event : AuthEvent) (config : PrivEscConfig) : Option DetectionResult :=
  if !config.enabled then Option.none
  else
    let delta := event.dst_privilege - event.src_privilege
    if delta ≤ 0 then Option.none
    else some
      { detection_type := "privilege_escalation"
        severity := severityOfDelta delta
        edge_ids := [event.id]
        node_ids := [event.src_node_id, event.dst_node_id]
        host_id := event.host_id
        description :=
          "Privilege escalation on " ++ event.host_id ++ ": " ++
          toString event.src_privilege ++ " -> " ++ toString event.dst_privilege ++
          " (+" ++ toString delta ++ ") via " ++ event.mechanism
        metadata :=
          [("delta", MetaVal.rat (pyRound4 delta)),
           ("mechanism", MetaVal.str event.mechanism),
           ("event_category", MetaVal.str event.event_category),
           ("src_privilege", MetaVal.rat event.src_privilege),
           ("dst_privilege", MetaVal.rat event.dst_privilege)] }

end privilege_escalation

/-! ## Detection B — auth burst (src/privesc_detector/detections/auth_burst.py)

Python string order (code-point lexicographic, used by `sorted`) is embedded
explicitly so terms reduce in the kernel. -/

/-- Lexicographic code-point comparison of char lists (Python string `<`). -/
def strLtAux : List Char → List Char → Bool
  | [], [] => false
  | [], _ :: _ => true
  | _ :: _, [] => false
  | a :: as, b :: bs =>
      if a.toNat < b.toNat then true
      else if b.toNat < a.toNat then false
      else strLtAux as bs

/-- Python string strict order. -/
def strLt (a b : String) : Bool := strLtAux a.data b.data

/-- Insertion step of a stable string sort. -/
def insertStr (x : String) : List String → List String
  | [] => [x]
  | y :: ys => if strLt y x then y :: insertStr x ys else x :: y :: ys

/-- Python `sorted` on a list of strings. -/
def sortStrings (l : List String) : List String := l.foldr insertStr []

/-- config.py BurstConfig. -/
structure BurstConfig where
  window_seconds : Int
  distinct_account_threshold : Nat
  max_events_tracked : Nat
deriving DecidableEq, Repr

/-- One window entry: `(timestamp, account_id)` as stored in the deque. -/
abbrev BurstEntry := Int × String

/-- The per-host window dict `_windows`: a host with no entry behaves exactly
like a host mapped to an empty deque, so the dict is modelled as a total
function defaulting to `[]`. -/
def BurstWindowState := String → List BurstEntry

/-- A freshly constructed BurstWindowState (empty dict). -/
def BurstWindowState.init : BurstWindowState := fun _ => []

/-- The record trim loop: `while len(win.events) > max_events: popleft()`. -/
def trimOldest (max_events : Nat) : List BurstEntry → List BurstEntry
  | [] => []
  | e :: t => if (e :: t).length ≤ max_events then e :: t else trimOldest max_events t

/-- BurstWindowState.record: append `(timestamp, account_id)` to the host
window, then trim oldest entries while over the cap. -/
def BurstWindowState.record (s : BurstWindowState) (host_id : String)
    (timestamp : Int) (account_id : String) (max_events : Nat) : BurstWindowState :=
  fun h =>
    if h = host_id then trimOldest max_events (s host_id ++ [(timestamp, account_id)])
    else s h

/-- The eviction loop: `while win.events and win.events[0][0] < cutoff: popleft()`. -/
def evictStale (cutoff : Int) : List BurstEntry → List BurstEntry
  | [] => []
  | (t, a) :: rest => if t < cutoff then evictStale cutoff rest else (t, a) :: rest

/-- BurstWindowState.get_distinct_accounts_in_window: evict stale entries from
the head, return the distinct account ids of the surviving window together
with the mutated state.  Python returns a `set`; its iteration order is
unspecified, so the set is represented by the duplicate-free list
`(window.map Prod.snd).dedup` — claims only use its length, its membership
and its `sorted` image, none of which depend on that choice. -/
def BurstWindowState.get_distinct_accounts_in_window (s : BurstWindowState)
    (host_id : String) (window_seconds : Int) (as_of : Int) :
    List String × BurstWindowState :=
  let win := evictStale (as_of - window_seconds) (s host_id)
  ((win.map Prod.snd).dedup, fun h => if h = host_id then win else s h)

/-- BurstWindowState.reset: clear one host window (`some h`) or all (`none`). -/
def BurstWindowState.reset (s : BurstWindowState) (host_id : Option String) :
    BurstWindowState :=
  match host_id with
  | Option.none => fun _ => []
  | some h => fun x => if x = h then [] else s x

namespace auth_burst

/-- auth_burst.detect.  Timezone normalisation of the timestamp is the
identity in this model (timestamps are already absolute instants).  Note the
source records `edge.src_node_id` — not `edge.src_account_id` — as the
`account_id` of the window entry. -/
def detect (edge : AuthEvent) (state : BurstWindowState) (config : BurstConfig) :
    Option DetectionResult × BurstWindowState :=
  let ts := edge.timestamp
  let s1 := state.record edge.host_id ts edge.src_node_id config.max_events_tracked
  let r := s1.get_distinct_accounts_in_window edge.host_id config.window_seconds ts
  let distinct := r.1
  let s2 := r.2
  if distinct.length < config.distinct_account_threshold then (Option.none, s2)
  else
    (some
      { detection_type := "auth_burst"
        severity := "high"
        edge_ids := [edge.id]
        node_ids := distinct
        host_id := edge.host_id
        description :=
          "Auth burst on " ++ edge.host_id ++ ": " ++ toString distinct.length ++
          " distinct accounts within " ++ toString config.window_seconds ++
          "s window (threshold: " ++ toString config.distinct_account_threshold ++ ")"
        metadata :=
          [("distinct_account_count", MetaVal.int distinct.length),
           ("distinct_accounts", MetaVal.strList (sortStrings distinct)),
           ("window_seconds", MetaVal.int config.window_seconds)] }, s2)

end auth_burst

/-! ## Graph model (networkx DiGraph as used by builder and chain detector) -/

/-- Node attribute dict as written by the builder / the fixtures:
`privilege_tier` plus an optional `host_id` (read by the chain detector via
`.get("host_id", "unknown")`). -/
structure NodeData where
  privilege_tier : ℚ
  host_id : Option String
deriving DecidableEq, Repr

/-- Edge attribute dict: the scalar attributes (a dynamic dict — producers
write either canonical `event_id` or legacy `edge_id` keys) plus the value of
the `edge_list` key, a list of per-event attribute dicts. -/
structure EdgeData where
  attrs : List (String × MetaVal)
  edge_list : List (List (String × MetaVal))
deriving DecidableEq, Repr

/-- A networkx DiGraph: insertion-ordered node and edge association lists
(networkx stores both in insertion-ordered dicts). -/
structure DiGraph where
  nodes : List (String × NodeData)
  edges : List ((String × String) × EdgeData)
deriving DecidableEq, Repr

/-- graph.number_of_nodes(). -/
def DiGraph.number_of_nodes (g : DiGraph) : Nat := g.nodes.length

/-- `n in graph`. -/
def DiGraph.hasNode (g : DiGraph) (n : String) : Bool := (g.nodes.lookup n).isSome

/-- graph.nodes[n] (None when absent). -/
def DiGraph.nodeData (g : DiGraph) (n : String) : Option NodeData := g.nodes.lookup n

/-- graph.get_edge_data(src, dst) (None when absent). -/
def DiGraph.get_edge_data (g : DiGraph) (s d : String) : Option EdgeData :=
  g.edges.lookup (s, d)

/-- graph.neighbors(n): successors of n in edge insertion order. -/
def DiGraph.neighbors (g : DiGraph) (n : String) : List String :=
  (g.edges.filter (fun e => e.1.1 = n)).map (fun e => e.1.2)

/-! ## Detection C — auth chain (src/privesc_detector/detections/auth_chain.py) -/

/-- config.py ChainConfig. -/
structure ChainConfig where
  max_chain_length : Nat
  max_graph_nodes : Nat
  cycle_detection : Bool
deriving DecidableEq, Repr

namespace auth_chain

/-- The iterative DFS of `_all_simple_paths_from`, written recursively: a
popped stack entry `(node, path)` records `path` when it has an edge, stops
extending once `len(path) - 1 >= cutoff`, and otherwise pushes the unvisited
neighbors — because the stack is LIFO, the last-pushed neighbor is explored
first, which is exactly pre-order recursion over the reversed neighbor list.
`fuel` only forces termination; every call keeps `path.length + fuel =
cutoff + 1`, so the `fuel = 0` fallback is unreachable from the top-level
call (the cutoff guard fires first). -/
def simplePathsAux (g : DiGraph) (cutoff : Nat) :
    Nat → String → List String → List (List String)
  | fuel, node, path =>
    (if 1 < path.length then [path] else []) ++
    (if cutoff ≤ path.length - 1 then []
     else
       match fuel with
       | 0 => []
       | fuel + 1 =>
         ((g.neighbors node).reverse.filter (fun nb => !path.contains nb)).flatMap
           (fun nb => simplePathsAux g cutoff fuel nb (path ++ [nb])))

/-- _all_simple_paths_from: all simple paths from source, up to cutoff hops,
in DFS (LIFO) discovery order. -/
def _all_simple_paths_from (g : DiGraph) (source : String) (cutoff : Nat) :
    List (List String) :=
  simplePathsAux g cutoff cutoff source [source]

/-- _collect_edge_ids, one consecutive pair at a time.  A Python dict
subscript with a missing key raises KeyError; that is the `Except.error`
branch.  (The detector reads key "edge_id"; value types other than strings
never arise and are mapped to a TypeError-style error.) -/
def collectEdgeIdsAux (g : DiGraph) : List (String × String) → Except String (List String)
  | [] => Except.ok []
  | (src, dst) :: rest =>
    let edge_data := (g.get_edge_data src dst).getD ⟨[], []⟩
    match edge_data.edge_list with
    | entry :: _ =>
      match entry.lookup "edge_id" with
      | some (MetaVal.str s) => (collectEdgeIdsAux g rest).map (fun ids => s :: ids)
      | some _ => Except.error "TypeError: edge_id is not a string"
      | Option.none => Except.error "KeyError: edge_id"
    | [] =>
      match edge_data.attrs.lookup "edge_id" with
      | some (MetaVal.str s) => (collectEdgeIdsAux g rest).map (fun ids => s :: ids)
      | some _ => Except.error "TypeError: edge_id is not a string"
      | Option.none => collectEdgeIdsAux g rest

/-- _collect_edge_ids over the consecutive pairs `zip(path, path[1:])`. -/
def _collect_edge_ids (g : DiGraph) (path : List String) : Except String (List String) :=
  collectEdgeIdsAux g (path.zip path.tail)

/-- The DetectionResult built for one recorded path. -/
def mkChainResult (config : ChainConfig) (starting_node : String)
    (host_id : String) (path : List String) (edge_ids : List String) :
    DetectionResult :=
  { detection_type := "auth_chain"
    severity := "high"
    edge_ids := edge_ids
    node_ids := path
    host_id := host_id
    description :=
      "Excessive auth chain from " ++ starting_node ++ ": " ++
      toString (path.length - 1) ++ " hops (threshold: " ++
      toString config.max_chain_length ++ ")"
    metadata :=
      [("path", MetaVal.strList path),
       ("hop_count", MetaVal.int ((path.length : Int) - 1)),
       ("starting_node", MetaVal.str starting_node)] }

/-- The result-accumulation loop of detect: for each recorded path whose
hop count exceeds the threshold, collect edge ids (propagating a KeyError)
and append the alert. -/
def buildResults (g : DiGraph) (config : ChainConfig) (starting_node : String) :
    List (List String) → Except String (List DetectionResult)
  | [] => Except.ok []
  | path :: rest =>
    if path.length - 1 > config.max_chain_length then
      match _collect_edge_ids g path with
      | Except.error e => Except.error e
      | Except.ok edge_ids =>
        let host_id := ((g.nodeData starting_node).map
          (fun nd => nd.host_id.getD "unknown")).getD "unknown"
        (buildResults g config starting_node rest).map
          (fun rs => mkChainResult config starting_node host_id path edge_ids :: rs)
    else buildResults g config starting_node rest

/-- auth_chain.detect.  Safety bail-outs return `[]`; a KeyError while
collecting edge ids aborts the whole call (Python propagates the exception,
discarding results accumulated so far). -/
def detect (graph : DiGraph) (config : ChainConfig) (starting_node : String) :
    Except String (List DetectionResult) :=
  if graph.number_of_nodes > config.max_graph_nodes then Except.ok []
  else if !graph.hasNode starting_node then Except.ok []
  else
    buildResults graph config starting_node
      (_all_simple_paths_from graph starting_node (config.max_chain_length + 1))

end auth_chain

/-! ## Graph builder (src/privesc_detector/graph/builder.py) -/

namespace builder

/-- The ISO rendering of a timestamp (`timestamp.isoformat()`), abstracted to
an injective rendering of the integer instant; no claim inspects its shape. -/
def isoformat (t : Int) : String := toString t

/-- An optional string attribute value (session_id may be None). -/
def optStr : Option String → MetaVal
  | Option.none => MetaVal.none
  | some s => MetaVal.str s

/-- builder._event_attrs: the per-event record appended to an edge
`edge_list` (canonical keys, in particular `event_id`). -/
def _event_attrs (e : AuthEvent) : List (String × MetaVal) :=
  [("event_id", MetaVal.str e.id),
   ("event_category", MetaVal.str e.event_category),
   ("mechanism", MetaVal.str e.mechanism),
   ("timestamp", MetaVal.str (isoformat e.timestamp)),
   ("session_id", optStr e.session_id),
   ("src_privilege", MetaVal.rat e.src_privilege),
   ("dst_privilege", MetaVal.rat e.dst_privilege)]

/-- builder._add_or_update_node: create the node with the event privilege and
host, or raise its privilege_tier to the max with the existing one (host_id
untouched on update — first writer wins).  The Python
`.get("privilege_tier", 0.0)` default is dead code here because every node
this builder creates carries a privilege_tier. -/
def _add_or_update_node (g : DiGraph) (node_id : String) (privilege : ℚ)
    (host_id : String) : DiGraph :=
  match g.nodes.lookup node_id with
  | Option.none =>
    { g with nodes := g.nodes ++ [(node_id, ⟨privilege, some host_id⟩)] }
  | some _ =>
    { g with nodes := g.nodes.map (fun p =>
        if p.1 = node_id then (p.1, { p.2 with privilege_tier := max p.2.privilege_tier privilege })
        else p) }

/-- The edge upsert of load_graph: append the per-event record to an existing
(src, dst) edge, or create the edge carrying the first record and the
top-level attributes copied from this (first) event. -/
def addEventEdge (g : DiGraph) (e : AuthEvent) : DiGraph :=
  match g.edges.lookup (e.src_node_id, e.dst_node_id) with
  | some _ =>
    { g with edges := g.edges.map (fun p =>
        if p.1 = (e.src_node_id, e.dst_node_id) then
          (p.1, { p.2 with edge_list := p.2.edge_list ++ [_event_attrs e] })
        else p) }
  | Option.none =>
    { g with edges := g.edges ++
        [((e.src_node_id, e.dst_node_id), ⟨_event_attrs e, [_event_attrs e]⟩)] }

/-- The per-event body of the load_graph loop. -/
def loadStep (g : DiGraph) (e : AuthEvent) : DiGraph :=
  addEventEdge
    (_add_or_update_node
      (_add_or_update_node g e.src_node_id e.src_privilege e.src_host_id)
      e.dst_node_id e.dst_privilege e.dst_host_id) e

/-- builder.load_graph. -/
def load_graph (events : List AuthEvent) : DiGraph :=
  events.foldl loadStep ⟨[], []⟩

end builder

/-! ## Enrichment (src/privesc_detector/enrichment/...) -/

/-- vault.py VaultCache: host_id → expected keytab paths (the Python set of
paths is modelled as the list it was built from). -/
structure VaultCache where
  keytabs_by_host : List (String × List String)
deriving DecidableEq, Repr

/-- VaultCache.is_keytab_expected. -/
def VaultCache.is_keytab_expected (v : VaultCache) (host_id keytab_path : String) : Bool :=
  ((v.keytabs_by_host.lookup host_id).getD []).contains keytab_path

/-- VaultCache.is_keytab_in_vault. -/
def VaultCache.is_keytab_in_vault (v : VaultCache) (keytab_path : String) : Bool :=
  v.keytabs_by_host.any (fun p => p.2.contains keytab_path)

/-- critical_accounts.py CriticalAccount. -/
structure CriticalAccount where
  account_id : String
  account_type : String
  is_critical : Bool
  allowed_hosts : List String
  sensitivity_score : ℚ
deriving DecidableEq, Repr

/-- critical_accounts.py CriticalAccountsCache. -/
structure CriticalAccountsCache where
  accounts : List (String × CriticalAccount)
deriving DecidableEq, Repr

/-- CriticalAccountsCache.get. -/
def CriticalAccountsCache.get (c : CriticalAccountsCache) (account_id : String) :
    Option CriticalAccount :=
  c.accounts.lookup account_id

/-- CriticalAccountsCache.is_critical. -/
def CriticalAccountsCache.is_critical (c : CriticalAccountsCache) (account_id : String) : Bool :=
  match c.accounts.lookup account_id with
  | some acct => acct.is_critical
  | Option.none => false

/-- cache.py AllEnrichments. -/
structure AllEnrichments where
  vault : VaultCache
  critical_accounts : CriticalAccountsCache
deriving DecidableEq, Repr

/-- vault.py VaultEnrichment.load() — the stub vault data, verbatim. -/
def vaultEnrichmentLoad : List (String × List String) :=
  [("host:web-prod-01", ["/etc/krb5.keytab", "/etc/http.keytab"]),
   ("host:db-prod-01", ["/etc/krb5.keytab", "/var/lib/postgresql/pg.keytab"]),
   ("host:bastion-01", ["/etc/krb5.keytab"]),
   ("host:app-dev-02", ["/etc/krb5.keytab"])]

/-- VaultEnrichment.to_cache. -/
def vaultToCache (raw : List (String × List String)) : VaultCache := ⟨raw⟩

/-- critical_accounts.py CriticalAccountsEnrichment.load() — stub data,
verbatim. -/
def criticalAccountsLoad : List (String × CriticalAccount) :=
  [("account:svc-deploy",
    ⟨"account:svc-deploy", "service", true, ["host:web-prod-01"], 9/10⟩),
   ("account:root",
    ⟨"account:root", "root", true, [], 1⟩),
   ("account:alice-admin",
    ⟨"account:alice-admin", "human", true, ["host:bastion-01", "host:app-dev-02"], 7/10⟩)]

/-- CriticalAccountsEnrichment.to_cache. -/
def criticalAccountsToCache (raw : List (String × CriticalAccount)) :
    CriticalAccountsCache := ⟨raw⟩

/-- cache.py EnrichmentCacheManager state: the `_cache` slot (the config and
the two stub stores are constants). -/
structure EnrichmentCacheManager where
  cache : Option AllEnrichments
deriving DecidableEq, Repr

/-- A freshly constructed manager: `_cache = None`. -/
def EnrichmentCacheManager.init : EnrichmentCacheManager := ⟨Option.none⟩

/-- EnrichmentCacheManager._build_cache. -/
def EnrichmentCacheManager.build_cache : AllEnrichments :=
  ⟨vaultToCache vaultEnrichmentLoad, criticalAccountsToCache criticalAccountsLoad⟩

/-- EnrichmentCacheManager.load_sync. -/
def EnrichmentCacheManager.load_sync (m : EnrichmentCacheManager) :
    EnrichmentCacheManager :=
  { m with cache := some EnrichmentCacheManager.build_cache }

/-- EnrichmentCacheManager.current: raises RuntimeError before load_sync. -/
def EnrichmentCacheManager.current (m : EnrichmentCacheManager) :
    Except String AllEnrichments :=
  match m.cache with
  | Option.none => Except.error "EnrichmentCacheManager not yet loaded"
  | some c => Except.ok c

/-! ## Detection D — keytab smuggling
(src/privesc_detector/detections/keytab_smuggling.py) -/

/-- config.py KeytabSmugglingConfig. -/
structure KeytabSmugglingConfig where
  enabled : Bool
deriving DecidableEq, Repr

namespace keytab_smuggling

/-- keytab_smuggling.detect.  Note `if not event.keytab_path` in the source
is Python truthiness: it returns None both when keytab_path is None and when
it is the empty string.  (The single-quoting of the path in the description
f-string is dropped.) -/
def detect (event : AuthEvent) (enrichments : AllEnrichments)
    (config : KeytabSmugglingConfig) : Option DetectionResult :=
  if !config.enabled then Option.none
  else if event.mechanism ≠ "kinit" then Option.none
  else
    match event.keytab_path with
    | Option.none => Option.none
    | some kp =>
      if kp = "" then Option.none
      else
        let vault := enrichments.vault
        let in_vault := vault.is_keytab_in_vault kp
        let in_expected_location := vault.is_keytab_expected event.host_id kp
        if in_vault && in_expected_location then Option.none
        else
          let reason :=
            if !in_vault then "keytab not registered in vault"
            else "keytab " ++ kp ++ " not expected on " ++ event.host_id
          let is_critical := enrichments.critical_accounts.is_critical event.src_account_id
          let severity := if is_critical then "critical" else "high"
          some
            { detection_type := "keytab_smuggling"
              severity := severity
              edge_ids := [event.id]
              node_ids := [event.src_node_id, event.dst_node_id]
              host_id := event.host_id
              description :=
                "Keytab smuggling on " ++ event.host_id ++ ": " ++ reason ++
                " (account: " ++ event.src_account_id ++ ")"
              metadata :=
                [("keytab_path", MetaVal.str kp),
                 ("in_vault", MetaVal.bool in_vault),
                 ("in_expected_location", MetaVal.bool in_expected_location),
                 ("account_is_critical", MetaVal.bool is_critical)] }

end keytab_smuggling

/-! ## Specification vocabulary used by theorem statements -/

/-- All privilege values that touch node n across a list of events (the src
privilege when n is the src node, the dst privilege when n is the dst node). -/
def touchPrivileges (events : List AuthEvent) (n : String) : List ℚ :=
  events.flatMap (fun e =>
    (if e.src_node_id = n then [e.src_privilege] else []) ++
    (if e.dst_node_id = n then [e.dst_privilege] else []))

/-- The host carried by the first event touching node n (the src host when n
first appears as a src node — the builder processes src before dst). -/
def firstTouchHost (events : List AuthEvent) (n : String) : Option String :=
  events.findSome? (fun e =>
    if e.src_node_id = n then some e.src_host_id
    else if e.dst_node_id = n then some e.dst_host_id
    else Option.none)

/-- The events whose (src_node_id, dst_node_id) pair is (s, d), in order. -/
def eventsForPair (events : List AuthEvent) (s d : String) : List AuthEvent :=
  events.filter (fun e => e.src_node_id == s && e.dst_node_id == d)

/-! ## Concrete instances exercised by the claims -/

/-- Scenario S1: a session event with src_privilege 0.2 and dst_privilege 0.5. -/
def sampleEscalation : AuthEvent :=
  ⟨"e1", "account:a", "host:h1", "account:b", "host:h1", "ssh", 2/10, 5/10, 0,
   Option.none, "host:h1", "unix_auth", "session", Option.none⟩

/-- Scenario S2 events: distinct accounts account:u0, account:u1, account:u2
on host:h1 at t = 0s, 1s, 2s. -/
def burstEventU (i : Nat) : AuthEvent :=
  ⟨"e" ++ toString i, "account:u" ++ toString i, "host:h1", "account:x", "host:h1",
   "ssh", 0, 0, (i : Int), Option.none, "host:h1", "unix_auth", "session", Option.none⟩

/-- Scenario S2 config: window_seconds=60, distinct_account_threshold=3. -/
def s2cfg : BurstConfig := ⟨60, 3, 1000⟩

/-- The burst state after the first two S2 detect calls. -/
def s2stateAfterTwo : BurstWindowState :=
  (auth_burst.detect (burstEventU 1)
    (auth_burst.detect (burstEventU 0) BurstWindowState.init s2cfg).2 s2cfg).2

/-- An out-of-timestamp-order event sequence on host:h1 (timestamps 100, 0,
100): used to exhibit a stale entry surviving eviction. -/
def lateEvent (id acct : String) (t : Int) : AuthEvent :=
  ⟨id, acct, "hs", "account:x", "host:h1", "ssh", 0, 0, t,
   Option.none, "host:h1", "unix_auth", "session", Option.none⟩

/-- Burst state after detect on (t=100, account a) then (t=0, account b). -/
def lateStateAfterTwo : BurstWindowState :=
  (auth_burst.detect (lateEvent "c2" "b" 0)
    (auth_burst.detect (lateEvent "c1" "a" 100) BurstWindowState.init s2cfg).2 s2cfg).2

/-- Four canonical events forming the chain A→B→C→D→E of scenario S4 between
compound account@host nodes, as the production pipeline would ingest them. -/
def chainEvents : List AuthEvent :=
  [⟨"event-0", "a", "hA", "b", "hB", "ssh", 3/10, 3/10, 0, Option.none, "host:test", "unix_auth", "session", Option.none⟩,
   ⟨"event-1", "b", "hB", "c", "hC", "ssh", 3/10, 3/10, 1, Option.none, "host:test", "unix_auth", "session", Option.none⟩,
   ⟨"event-2", "c", "hC", "d", "hD", "ssh", 3/10, 3/10, 2, Option.none, "host:test", "unix_auth", "session", Option.none⟩,
   ⟨"event-3", "d", "hD", "e", "hE", "ssh", 3/10, 3/10, 3, Option.none, "host:test", "unix_auth", "session", Option.none⟩]

/-- One legacy-keyed edge (edge_id/edge_type keys) as the test fixtures build. -/
def legacyEdge (s d : String) (i : Nat) : (String × String) × EdgeData :=
  ((s, d),
   ⟨[("edge_id", MetaVal.str ("eid-" ++ toString i))],
    [[("edge_id", MetaVal.str ("eid-" ++ toString i)),
      ("edge_type", MetaVal.str "ssh")]]⟩)

/-- Scenario S5 graph: the cycle A→B→C→A. -/
def cyclicGraph : DiGraph :=
  ⟨[("A", ⟨3/10, some "host:test"⟩), ("B", ⟨3/10, some "host:test"⟩),
    ("C", ⟨3/10, some "host:test"⟩)],
   [legacyEdge "A" "B" 0, legacyEdge "B" "C" 1, legacyEdge "C" "A" 2]⟩

/-- Scenario S4 chain config: threshold 3. -/
def s4cfg : ChainConfig := ⟨3, 50000, true⟩

/-- A kinit authentication event carrying an empty-string keytab_path. -/
def emptyKeytabEvent : AuthEvent :=
  ⟨"k0", "account:alice", "host:app-dev-02", "account:alice", "host:app-dev-02",
   "kinit", 1/10, 6/10, 0, Option.none, "host:app-dev-02", "unix_auth",
   "authentication", some ""⟩

/-- Scenario S6: kinit on host:app-dev-02 with a smuggled keytab by a
critical account. -/
def smuggledKeytabEvent : AuthEvent :=
  ⟨"k1", "account:alice-admin", "host:app-dev-02", "account:alice-admin",
   "host:app-dev-02", "kinit", 1/10, 6/10, 0, Option.none, "host:app-dev-02",
   "unix_auth", "authentication", some "/tmp/smuggled.keytab"⟩

/-- A kinit event whose keytab is registered and expected on its host. -/
def legitKeytabEvent : AuthEvent :=
  ⟨"k2", "account:alice", "host:app-dev-02", "account:alice", "host:app-dev-02",
   "kinit", 1/10, 6/10, 0, Option.none, "host:app-dev-02", "unix_auth",
   "authentication", some "/etc/krb5.keytab"⟩

/-- The S4 graph with legacy edge_id keys, as the test fixture
test_edge_ids_collected_from_path builds it. -/
def legacyLongChainGraph : DiGraph :=
  ⟨[("A", ⟨3/10, some "host:test"⟩), ("B", ⟨3/10, some "host:test"⟩),
    ("C", ⟨3/10, some "host:test"⟩), ("D", ⟨3/10, some "host:test"⟩),
    ("E", ⟨3/10, some "host:test"⟩)],
   [legacyEdge "A" "B" 0, legacyEdge "B" "C" 1, legacyEdge "C" "D" 2,
    legacyEdge "D" "E" 3]⟩

/-- The running maximum of a list of privileges, as the builder accumulates
it (none for the empty list). -/
def privMaxAcc (l : List ℚ) : Option ℚ :=
  l.foldl (fun acc q =>
    some (match acc with | Option.none => q | some m => max m q)) Option.none

/-! # Theorems

Shared helper lemmas first, then one theorem per claim (with witnesses and
counterexamples where required). -/

/-! ## Burst window helper lemmas -/

/-- Trimming drops entries only from the front: the result is a suffix. -/
theorem trimOldest_isSuffix (m : Nat) : ∀ w : List BurstEntry, (trimOldest m w).IsSuffix w := by
  intro w
  induction w with
  | nil => simp [trimOldest]
  | cons e t ih =>
    rw [trimOldest]
    by_cases h : (e :: t).length ≤ m
    · rw [if_pos h]
    · rw [if_neg h]
      exact ih.trans (List.suffix_cons e t)

/-- Trimming enforces the cap. -/
theorem trimOldest_length_le (m : Nat) : ∀ w : List BurstEntry, (trimOldest m w).length ≤ m := by
  intro w
  induction w with
  | nil => simp [trimOldest]
  | cons e t ih =>
    rw [trimOldest]
    by_cases h : (e :: t).length ≤ m
    · rw [if_pos h]; exact h
    · rw [if_neg h]; exact ih

/-- Head eviction drops entries only from the front: the result is a suffix. -/
theorem evictStale_isSuffix (c : Int) : ∀ w : List BurstEntry, (evictStale c w).IsSuffix w := by
  intro w
  induction w with
  | nil => simp [evictStale]
  | cons e t ih =>
    rcases e with ⟨t0, a0⟩
    rw [evictStale]
    by_cases h : t0 < c
    · rw [if_pos h]
      exact ih.trans (List.suffix_cons (t0, a0) t)
    · rw [if_neg h]

/-- On a timestamp-sorted window, head eviction removes every stale entry. -/
theorem evictStale_sorted_no_stale (c : Int) :
    ∀ w : List BurstEntry, w.Pairwise (fun a b => a.1 ≤ b.1) →
      ∀ x ∈ evictStale c w, ¬(x.1 < c) := by
  intro w
  induction w with
  | nil => intro _ x hx; simp [evictStale] at hx
  | cons e t ih =>
    rcases e with ⟨t0, a0⟩
    intro hp x hx
    rw [evictStale] at hx
    rcases List.pairwise_cons.mp hp with ⟨hhead, htail⟩
    by_cases h : t0 < c
    · rw [if_pos h] at hx
      exact ih htail x hx
    · rw [if_neg h] at hx
      rcases List.mem_cons.mp hx with hx | hx
      · subst hx; exact h
      · have := hhead x hx
        simp only [not_lt] at h ⊢
        exact le_trans h this

/-- The state returned by auth_burst.detect, in closed form. -/
theorem auth_burst_detect_snd (e : AuthEvent) (s : BurstWindowState) (cfg : BurstConfig) :
    (auth_burst.detect e s cfg).2 = fun h =>
      if h = e.host_id then
        evictStale (e.timestamp - cfg.window_seconds)
          ((s.record e.host_id e.timestamp e.src_node_id cfg.max_events_tracked) e.host_id)
      else (s.record e.host_id e.timestamp e.src_node_id cfg.max_events_tracked) h := by
  unfold auth_burst.detect BurstWindowState.get_distinct_accounts_in_window
  dsimp only
  split <;> rfl

/-- The alert returned by auth_burst.detect depends on the state only through
the window of the event host. -/
theorem auth_burst_detect_fst_congr (e : AuthEvent) (cfg : BurstConfig)
    (s s' : BurstWindowState) (h : s e.host_id = s' e.host_id) :
    (auth_burst.detect e s cfg).1 = (auth_burst.detect e s' cfg).1 := by
  unfold auth_burst.detect BurstWindowState.get_distinct_accounts_in_window
    BurstWindowState.record
  dsimp only
  rw [if_pos rfl, if_pos rfl, h]
  split <;> rfl

/-! ## Claim C1 -/

/-- C1: at the S2 input (three events on host:h1 from distinct accounts
account:u0, account:u1, account:u2 at t, t+1s, t+2s; window_seconds=60,
distinct_account_threshold=3) the third detect call does fire a "high" alert
with distinct_account_count = 3, but its distinct_accounts are the compound
src_node_id values "account:uI|host:h1" — not the src_account_id values
["account:u0", "account:u1", "account:u2"] the claim (and the spec, the
window docstrings, and the test suite) require: detect records
edge.src_node_id where src_account_id was intended. -/
theorem C1_burst_records_node_ids_not_accounts :
    ((auth_burst.detect (burstEventU 2) s2stateAfterTwo s2cfg).1.map
        (fun r => (r.severity, r.metadata.lookup "distinct_account_count",
                   r.metadata.lookup "distinct_accounts"))) =
      some ("high", some (MetaVal.int 3),
        some (MetaVal.strList
          ["account:u0|host:h1", "account:u1|host:h1", "account:u2|host:h1"])) ∧
    ["account:u0|host:h1", "account:u1|host:h1", "account:u2|host:h1"] ≠
      ["account:u0", "account:u1", "account:u2"] := by
  constructor
  · rfl
  · decide

/-! ## Claim C3 -/

/-- C3: the privilege escalation detector fires iff enabled and
dst_privilege − src_privilege > 0; on firing, severity follows the
0.2/0.5/0.8 ladder on the delta, edge_ids = [event id], node_ids =
[src_node_id, dst_node_id], host_id is the event host, and metadata.delta is
the delta rounded to 4 places. -/
theorem C3_privilege_escalation_detect (e : AuthEvent) (cfg : PrivEscConfig) :
    (privilege_escalation.detect e cfg ≠ Option.none ↔
      cfg.enabled = true ∧ 0 < e.dst_privilege - e.src_privilege) ∧
    (∀ r, privilege_escalation.detect e cfg = some r →
      (e.dst_privilege - e.src_privilege < 2/10 → r.severity = "low") ∧
      (2/10 ≤ e.dst_privilege - e.src_privilege →
        e.dst_privilege - e.src_privilege < 5/10 → r.severity = "medium") ∧
      (5/10 ≤ e.dst_privilege - e.src_privilege →
        e.dst_privilege - e.src_privilege < 8/10 → r.severity = "high") ∧
      (8/10 ≤ e.dst_privilege - e.src_privilege → r.severity = "critical") ∧
      r.edge_ids = [e.id] ∧
      r.node_ids = [e.src_node_id, e.dst_node_id] ∧
      r.host_id = e.host_id ∧
      r.metadata.lookup "delta" =
        some (MetaVal.rat (pyRound4 (e.dst_privilege - e.src_privilege)))) := by
  rcases cfg with ⟨enabled⟩
  cases enabled
  · simp [privilege_escalation.detect]
  · by_cases hd : e.dst_privilege - e.src_privilege ≤ 0
    · constructor
      · simp [privilege_escalation.detect, hd]
        linarith
      · intro r hr
        simp [privilege_escalation.detect, hd] at hr
    · constructor
      · simp [privilege_escalation.detect, hd]
        linarith
      · intro r hr
        simp [privilege_escalation.detect, hd] at hr
        subst hr
        refine ⟨?_, ?_, ?_, ?_, rfl, rfl, rfl, rfl⟩
        · intro h1
          simp only [privilege_escalation.severityOfDelta]
          rw [if_pos h1]
        · intro h1 h2
          simp only [privilege_escalation.severityOfDelta]
          rw [if_neg (by linarith), if_pos h2]
        · intro h1 h2
          simp only [privilege_escalation.severityOfDelta]
          rw [if_neg (by linarith), if_neg (by linarith), if_pos h2]
        · intro h1
          simp only [privilege_escalation.severityOfDelta]
          rw [if_neg (by linarith), if_neg (by linarith), if_neg (by linarith)]

/-- Witness for C3 at the S1 event (delta 0.3): the detector fires. -/
theorem C3_privilege_escalation_detect_witness :
    privilege_escalation.detect sampleEscalation ⟨true⟩ ≠ Option.none :=
  (C3_privilege_escalation_detect sampleEscalation ⟨true⟩).1.mpr
    ⟨rfl, by norm_num [sampleEscalation]⟩

/-! ## Claim C4 -/

/-- C4 counterexample: a kinit event with keytab_path = some "" (present but
empty) satisfies none of the no-alert conditions the claim lists — enabled,
mechanism kinit, keytab_path present, not vault-legitimate — yet detect
returns no alert, because Python truthiness treats the empty string like an
absent path. -/
theorem C4_empty_keytab_path_counterexample :
    keytab_smuggling.detect emptyKeytabEvent EnrichmentCacheManager.build_cache ⟨true⟩ =
      Option.none ∧
    emptyKeytabEvent.mechanism = "kinit" ∧
    emptyKeytabEvent.keytab_path ≠ Option.none ∧
    ¬(EnrichmentCacheManager.build_cache.vault.is_keytab_in_vault "" = true ∧
      EnrichmentCacheManager.build_cache.vault.is_keytab_expected
        emptyKeytabEvent.host_id "" = true) := by
  refine ⟨rfl, rfl, by decide, by decide⟩

/-- C4 (amended: "absent" also covers the empty string): the keytab
smuggling detector returns no alert iff disabled, non-kinit, keytab_path
absent or empty, or the keytab is both in the vault and expected on the
event host; otherwise it fires with severity critical exactly for critical
source accounts (high otherwise), edge_ids = [event id], node_ids =
[src_node_id, dst_node_id], metadata reflecting the vault lookups, and —
consequently — never with both in_vault and in_expected_location true. -/
theorem C4_keytab_smuggling_detect (e : AuthEvent) (enr : AllEnrichments)
    (cfg : KeytabSmugglingConfig) :
    (keytab_smuggling.detect e enr cfg = Option.none ↔
      cfg.enabled = false ∨ e.mechanism ≠ "kinit" ∨ e.keytab_path = Option.none ∨
      e.keytab_path = some "" ∨
      (∃ kp, e.keytab_path = some kp ∧
        enr.vault.is_keytab_in_vault kp = true ∧
        enr.vault.is_keytab_expected e.host_id kp = true)) ∧
    (∀ r, keytab_smuggling.detect e enr cfg = some r →
      (enr.critical_accounts.is_critical e.src_account_id = true →
        r.severity = "critical") ∧
      (enr.critical_accounts.is_critical e.src_account_id = false →
        r.severity = "high") ∧
      r.edge_ids = [e.id] ∧ r.node_ids = [e.src_node_id, e.dst_node_id] ∧
      r.host_id = e.host_id ∧
      (∃ kp, e.keytab_path = some kp ∧
        r.metadata =
          [("keytab_path", MetaVal.str kp),
           ("in_vault", MetaVal.bool (enr.vault.is_keytab_in_vault kp)),
           ("in_expected_location",
             MetaVal.bool (enr.vault.is_keytab_expected e.host_id kp)),
           ("account_is_critical",
             MetaVal.bool (enr.critical_accounts.is_critical e.src_account_id))] ∧
        ¬(enr.vault.is_keytab_in_vault kp = true ∧
          enr.vault.is_keytab_expected e.host_id kp = true))) := by
  rcases cfg with ⟨enabled⟩
  cases enabled
  · simp [keytab_smuggling.detect]
  · by_cases hm : e.mechanism = "kinit"
    · cases hkp : e.keytab_path with
      | none => simp [keytab_smuggling.detect, hm, hkp]
      | some kp =>
        by_cases hemp : kp = ""
        · subst hemp
          simp [keytab_smuggling.detect, hm, hkp]
        · by_cases hv : enr.vault.is_keytab_in_vault kp = true ∧
              enr.vault.is_keytab_expected e.host_id kp = true
          · constructor
            · simp [keytab_smuggling.detect, hm, hkp, hemp, hv.1, hv.2]
            · intro r hr
              simp [keytab_smuggling.detect, hm, hkp, hemp, hv.1, hv.2] at hr
          · constructor
            · simp only [keytab_smuggling.detect, hm, hkp]
              rw [if_neg (by simp), if_neg (by simp [hm]), if_neg hemp,
                if_neg (by simpa using hv)]
              simp [hemp, hv]
            · intro r hr
              simp only [keytab_smuggling.detect, hm, hkp] at hr
              rw [if_neg (by simp), if_neg (by simp [hm]), if_neg hemp] at hr
              rw [if_neg (by simpa using hv)] at hr
              simp only [Option.some.injEq] at hr
              subst hr
              refine ⟨?_, ?_, rfl, rfl, rfl, kp, rfl, rfl, hv⟩
              · intro hc; simp [hc]
              · intro hc; simp [hc]
    · simp [keytab_smuggling.detect, hm]

/-- Witness for C4 at a vault-legitimate kinit event: no alert. -/
theorem C4_keytab_smuggling_detect_witness :
    keytab_smuggling.detect legitKeytabEvent EnrichmentCacheManager.build_cache ⟨true⟩ =
      Option.none :=
  (C4_keytab_smuggling_detect legitKeytabEvent EnrichmentCacheManager.build_cache
      ⟨true⟩).1.mpr
    (Or.inr (Or.inr (Or.inr (Or.inr ⟨"/etc/krb5.keytab", rfl, by decide, by decide⟩))))

/-! ## Claim C9 -/

/-- C9: reading current on a freshly constructed manager fails with the
"not yet loaded" RuntimeError message; after load_sync (and before any
refresh) current returns exactly the snapshot load_sync built, and — reads
being pure — any manager holding a snapshot returns that snapshot on every
read. -/
theorem C9_enrichment_current_lifecycle :
    EnrichmentCacheManager.current EnrichmentCacheManager.init =
      Except.error ("EnrichmentCacheManager " ++ "not yet loaded") ∧
    EnrichmentCacheManager.current
        (EnrichmentCacheManager.load_sync EnrichmentCacheManager.init) =
      Except.ok EnrichmentCacheManager.build_cache ∧
    (∀ c : AllEnrichments, EnrichmentCacheManager.current ⟨some c⟩ = Except.ok c) :=
  ⟨rfl, rfl, fun _ => rfl⟩

/-! ## Claim C10 -/

/-- The per-path alert depends on the config only through max_chain_length. -/
theorem mkChainResult_congr (c c' : ChainConfig)
    (h : c.max_chain_length = c'.max_chain_length) (s hid : String)
    (p eids : List String) :
    auth_chain.mkChainResult c s hid p eids = auth_chain.mkChainResult c' s hid p eids := by
  simp only [auth_chain.mkChainResult, h]

/-- The emit loop depends on the config only through max_chain_length. -/
theorem buildResults_congr (g : DiGraph) (s : String) (c c' : ChainConfig)
    (h : c.max_chain_length = c'.max_chain_length) :
    ∀ ps, auth_chain.buildResults g c s ps = auth_chain.buildResults g c' s ps := by
  intro ps
  induction ps with
  | nil => rfl
  | cons p rest ih =>
    rw [auth_chain.buildResults, auth_chain.buildResults, h, ih]
    simp only [mkChainResult_congr c c' h s]

/-- C10: detect never consults cycle_detection — two chain configs agreeing
on max_chain_length and max_graph_nodes produce identical outputs on every
graph and starting node. -/
theorem C10_chain_cycle_detection_never_consulted (g : DiGraph) (s : String)
    (c1 c2 : ChainConfig) (h1 : c1.max_chain_length = c2.max_chain_length)
    (h2 : c1.max_graph_nodes = c2.max_graph_nodes) :
    auth_chain.detect g c1 s = auth_chain.detect g c2 s := by
  unfold auth_chain.detect
  rw [h1, h2, buildResults_congr g s c1 c2 h1]

/-- Witness for C10: flipping cycle_detection on the cyclic S5 graph changes
nothing. -/
theorem C10_chain_cycle_detection_never_consulted_witness :
    auth_chain.detect cyclicGraph ⟨3, 1000, true⟩ "A" =
      auth_chain.detect cyclicGraph ⟨3, 1000, false⟩ "A" :=
  C10_chain_cycle_detection_never_consulted cyclicGraph "A" ⟨3, 1000, true⟩
    ⟨3, 1000, false⟩ rfl rfl

/-! ## Claim C7 -/

/-- Every path the DFS emits from a duplicate-free partial path is
duplicate-free: extensions only ever add neighbors not already on the path. -/
theorem simplePathsAux_nodup (g : DiGraph) (cutoff : Nat) :
    ∀ (fuel : Nat) (node : String) (path : List String), path.Nodup →
      ∀ p ∈ auth_chain.simplePathsAux g cutoff fuel node path, p.Nodup := by
  intro fuel
  induction fuel with
  | zero =>
    intro node path hnd p hp
    rw [auth_chain.simplePathsAux] at hp
    simp only [List.mem_append] at hp
    rcases hp with hp | hp
    · by_cases h1 : 1 < path.length
      · rw [if_pos h1] at hp
        simp only [List.mem_singleton] at hp
        subst hp; exact hnd
      · rw [if_neg h1] at hp; simp at hp
    · by_cases h2 : cutoff ≤ path.length - 1
      · rw [if_pos h2] at hp; simp at hp
      · rw [if_neg h2] at hp; simp at hp
  | succ n ih =>
    intro node path hnd p hp
    rw [auth_chain.simplePathsAux] at hp
    simp only [List.mem_append] at hp
    rcases hp with hp | hp
    · by_cases h1 : 1 < path.length
      · rw [if_pos h1] at hp
        simp only [List.mem_singleton] at hp
        subst hp; exact hnd
      · rw [if_neg h1] at hp; simp at hp
    · by_cases h2 : cutoff ≤ path.length - 1
      · rw [if_pos h2] at hp; simp at hp
      · rw [if_neg h2] at hp
        simp only [List.mem_flatMap, List.mem_filter, List.mem_reverse] at hp
        rcases hp with ⟨nb, ⟨hnbmem, hnbnot⟩, hp⟩
        have hnb : nb ∉ path := by
          intro hmem
          have hc : path.contains nb = true := List.elem_eq_true_of_mem hmem
          rw [hc] at hnbnot
          simp at hnbnot
        refine ih nb (path ++ [nb]) ?_ p hp
        simp [List.nodup_append, hnd, hnb]

/-- Each emitted result carries as node_ids one of the recorded paths. -/
theorem buildResults_node_ids_mem (g : DiGraph) (c : ChainConfig) (s : String) :
    ∀ (ps : List (List String)) (rs : List DetectionResult),
      auth_chain.buildResults g c s ps = Except.ok rs →
      ∀ r ∈ rs, r.node_ids ∈ ps := by
  intro ps
  induction ps with
  | nil =>
    intro rs h r hr
    rw [auth_chain.buildResults] at h
    injection h with h
    subst h
    simp at hr
  | cons p rest ih =>
    intro rs h r hr
    rw [auth_chain.buildResults] at h
    by_cases hg : p.length - 1 > c.max_chain_length
    · rw [if_pos hg] at h
      cases hcol : auth_chain._collect_edge_ids g p with
      | error e => rw [hcol] at h; cases h
      | ok eids =>
        rw [hcol] at h
        cases hrest : auth_chain.buildResults g c s rest with
        | error e => rw [hrest] at h; simp [Except.map] at h
        | ok tailResults =>
          rw [hrest] at h
          simp only [Except.map, Except.ok.injEq] at h
          subst h
          rcases List.mem_cons.mp hr with hr | hr
          · subst hr
            simp [auth_chain.mkChainResult]
          · exact List.mem_cons_of_mem _ (ih tailResults hrest r hr)
    · rw [if_neg hg] at h
      exact List.mem_cons_of_mem _ (ih rs h r hr)

/-- C7: whenever detect returns results, every node_ids list is a simple
path (no node repeated), and on the cyclic S5 graph A→B→C→A with threshold 3
and start A no alerts are produced (the enumeration — a total function here
— terminates with finitely many results). -/
theorem C7_chain_reported_paths_simple (g : DiGraph) (cfg : ChainConfig)
    (s : String) (rs : List DetectionResult)
    (h : auth_chain.detect g cfg s = Except.ok rs) :
    (∀ r ∈ rs, r.node_ids.Nodup) ∧
    auth_chain.detect cyclicGraph ⟨3, 1000, true⟩ "A" = Except.ok [] := by
  refine ⟨?_, rfl⟩
  intro r hr
  unfold auth_chain.detect at h
  by_cases hb : g.number_of_nodes > cfg.max_graph_nodes
  · rw [if_pos hb] at h
    injection h with h; subst h; simp at hr
  · rw [if_neg hb] at h
    by_cases hn : g.hasNode s = true
    · rw [if_neg (by simp [hn])] at h
      have hmem := buildResults_node_ids_mem g cfg s _ rs h r hr
      exact simplePathsAux_nodup g _ _ s [s] (by simp) _ hmem
    · rw [if_pos (by simpa using hn)] at h
      injection h with h; subst h; simp at hr

/-- Witness for C7: the single alert on the legacy-keyed S4 chain graph has
duplicate-free node_ids. -/
theorem C7_chain_reported_paths_simple_witness :
    (auth_chain.mkChainResult ⟨3, 1000, true⟩ "A" "host:test"
      ["A", "B", "C", "D", "E"] ["eid-0", "eid-1", "eid-2", "eid-3"]).node_ids.Nodup := by
  have h := (C7_chain_reported_paths_simple legacyLongChainGraph ⟨3, 1000, true⟩ "A"
    [auth_chain.mkChainResult ⟨3, 1000, true⟩ "A" "host:test"
      ["A", "B", "C", "D", "E"] ["eid-0", "eid-1", "eid-2", "eid-3"]] rfl).1
  exact h _ (List.mem_singleton.mpr rfl)

/-! ## Claim C2 -/

/-- C2: on the canonical S4 graph — built by builder.load_graph from four
events forming the chain a|hA → b|hB → c|hC → d|hD → e|hE, whose edge_list
records carry the event id under the canonical "event_id" key — the chain
detector with threshold 3 does NOT return the claimed alert: although
neither safety bail-out applies and the 4-hop simple path is enumerated,
_collect_edge_ids subscripts the records with the legacy "edge_id" key and
raises KeyError, so detect aborts instead of emitting edge_ids of event
ids. -/
theorem C2_canonical_graph_raises_keyerror :
    auth_chain.detect (builder.load_graph chainEvents) s4cfg "a|hA" =
      Except.error "KeyError: edge_id" ∧
    (builder.load_graph chainEvents).number_of_nodes ≤ s4cfg.max_graph_nodes ∧
    (builder.load_graph chainEvents).hasNode "a|hA" = true ∧
    ["a|hA", "b|hB", "c|hC", "d|hD", "e|hE"] ∈
      auth_chain._all_simple_paths_from (builder.load_graph chainEvents) "a|hA"
        (s4cfg.max_chain_length + 1) := by
  refine ⟨rfl, by decide, rfl, by decide⟩

/-! ## Claim C6 -/

/-- C6 counterexample: with events on host:h1 at timestamps 100 then 0 then
100 (window_seconds 60), the detect call at ts=100 leaves the entry with
timestamp 0 in the window even though 0 < ts − window_seconds = 40: head
eviction stops at the first fresh entry, so a stale entry behind a fresh one
survives, contradicting the unconditional no-stale-entry part of the
claim. -/
theorem C6_stale_entry_survives_counterexample :
    (auth_burst.detect (lateEvent "c3" "c" 100) lateStateAfterTwo s2cfg).2 "host:h1" =
      [(100, "a|hs"), (0, "b|hs"), (100, "c|hs")] ∧
    (0, "b|hs") ∈ (auth_burst.detect (lateEvent "c3" "c" 100) lateStateAfterTwo s2cfg).2
        "host:h1" ∧
    (0 : Int) < (lateEvent "c3" "c" 100).timestamp - s2cfg.window_seconds := by
  refine ⟨rfl, by decide, by decide⟩

/-- C6 (amended: the no-stale-entry part holds provided the appended window
timestamps are non-decreasing, e.g. when events arrive in timestamp order):
after a detect call the host window holds at most max_events_tracked
entries; it is a suffix of the previous window extended by the new entry —
so oldest entries are dropped first, relative order is preserved, and
evicted entries are never resurrected; on a non-decreasing window no entry
older than ts − window_seconds survives; and the alert (when fired) computes
its distinct accounts exactly over the surviving window. -/
theorem C6_burst_window_invariants (e : AuthEvent) (s : BurstWindowState)
    (cfg : BurstConfig) (w : List BurstEntry)
    (hw : w = (auth_burst.detect e s cfg).2 e.host_id) :
    w.length ≤ cfg.max_events_tracked ∧
    w.IsSuffix (s e.host_id ++ [(e.timestamp, e.src_node_id)]) ∧
    ((s e.host_id ++ [(e.timestamp, e.src_node_id)]).Pairwise (fun a b => a.1 ≤ b.1) →
      ∀ x ∈ w, ¬(x.1 < e.timestamp - cfg.window_seconds)) ∧
    (∀ r, (auth_burst.detect e s cfg).1 = some r →
      r.node_ids = (w.map Prod.snd).dedup) := by
  rw [auth_burst_detect_snd] at hw
  dsimp only at hw
  rw [if_pos rfl] at hw
  unfold BurstWindowState.record at hw
  rw [if_pos rfl] at hw
  subst hw
  refine ⟨?_, ?_, ?_, ?_⟩
  · exact le_trans (List.IsSuffix.length_le (evictStale_isSuffix _ _))
      (trimOldest_length_le _ _)
  · exact (evictStale_isSuffix _ _).trans (trimOldest_isSuffix _ _)
  · intro hsor x hx
    have htrim := List.Pairwise.sublist
      (List.IsSuffix.sublist (trimOldest_isSuffix cfg.max_events_tracked
        (s e.host_id ++ [(e.timestamp, e.src_node_id)]))) hsor
    exact evictStale_sorted_no_stale _ _ htrim x hx
  · intro r hr
    unfold auth_burst.detect BurstWindowState.get_distinct_accounts_in_window
      BurstWindowState.record at hr
    dsimp only at hr
    rw [if_pos rfl] at hr
    split at hr
    · exact absurd hr (by simp)
    · injection hr with hr
      subst hr
      rfl

/-! ## Claim C8 -/

/-- C8: a detect or record call touches only the window of the event host —
every other host window, and hence every detection outcome on another host,
is unchanged; reset(some h) clears exactly the window of h; reset(none)
clears all windows. -/
theorem C8_burst_per_host_isolation (e : AuthEvent) (s : BurstWindowState)
    (cfg : BurstConfig) (h : String) :
    (h ≠ e.host_id → (auth_burst.detect e s cfg).2 h = s h) ∧
    (∀ ts acct m host, h ≠ host → (s.record host ts acct m) h = s h) ∧
    (∀ (e2 : AuthEvent) (cfg2 : BurstConfig), e2.host_id ≠ e.host_id →
      (auth_burst.detect e2 (auth_burst.detect e s cfg).2 cfg2).1 =
      (auth_burst.detect e2 s cfg2).1) ∧
    ((s.reset (some h)) h = []) ∧
    (∀ h2, h2 ≠ h → (s.reset (some h)) h2 = s h2) ∧
    (∀ h2, (s.reset Option.none) h2 = []) := by
  refine ⟨?_, ?_, ?_, ?_, ?_, ?_⟩
  · intro hne
    rw [auth_burst_detect_snd]
    dsimp only
    rw [if_neg hne]
    unfold BurstWindowState.record
    rw [if_neg hne]
  · intro ts acct m host hne
    unfold BurstWindowState.record
    rw [if_neg hne]
  · intro e2 cfg2 hne
    refine auth_burst_detect_fst_congr e2 cfg2 _ s ?_
    rw [auth_burst_detect_snd]
    dsimp only
    rw [if_neg hne]
    unfold BurstWindowState.record
    rw [if_neg hne]
  · simp [BurstWindowState.reset]
  · intro h2 hne
    simp [BurstWindowState.reset, hne]
  · intro h2
    simp [BurstWindowState.reset]

/-- Witness for C8: a detect call on host:h1 leaves the window of
host:other untouched, and reset(host:h1) empties the host:h1 window. -/
theorem C8_burst_per_host_isolation_witness :
    (auth_burst.detect (burstEventU 0) BurstWindowState.init s2cfg).2 "host:other" =
      BurstWindowState.init "host:other" ∧
    (BurstWindowState.init.reset (some "host:h1")) "host:h1" = [] :=
  ⟨(C8_burst_per_host_isolation (burstEventU 0) BurstWindowState.init s2cfg
      "host:other").1 (by decide),
   (C8_burst_per_host_isolation (burstEventU 0) BurstWindowState.init s2cfg
      "host:h1").2.2.2.1⟩

/-- Witness for C6 at the first S2 event on an empty state: the resulting
window is the appended entry itself and carries no stale entry. -/
theorem C6_burst_window_invariants_witness :
    List.IsSuffix [((0 : Int), "account:u0|host:h1")]
      (BurstWindowState.init (burstEventU 0).host_id ++
        [((burstEventU 0).timestamp, (burstEventU 0).src_node_id)]) ∧
    ¬((((0 : Int), "account:u0|host:h1") : BurstEntry).1 <
        (burstEventU 0).timestamp - s2cfg.window_seconds) :=
  ⟨(C6_burst_window_invariants (burstEventU 0) BurstWindowState.init s2cfg
      [((0 : Int), "account:u0|host:h1")] rfl).2.1,
   (C6_burst_window_invariants (burstEventU 0) BurstWindowState.init s2cfg
      [((0 : Int), "account:u0|host:h1")] rfl).2.2.1 (by decide) _ (by decide)⟩

/-! ## Claim C5 — builder lemmas -/

/-- Lookup after an in-place keyed update of an association list. -/
theorem lookup_update_assoc {α β : Type} [DecidableEq α] [BEq α] [LawfulBEq α]
    (l : List (α × β)) (k : α) (f : β → β) (n : α) :
    List.lookup n (l.map (fun p => if p.1 = k then (p.1, f p.2) else p)) =
      if n = k then (List.lookup n l).map f else List.lookup n l := by
  induction l with
  | nil => simp [List.lookup]
  | cons a t ih =>
    rcases a with ⟨ak, av⟩
    simp only [List.map_cons]
    by_cases hak : ak = k <;> by_cases hn : n = ak
    · subst hak; subst hn
      rw [if_pos rfl, if_pos rfl, List.lookup_cons_self, List.lookup_cons_self]
      rfl
    · subst hak
      rw [if_pos rfl]
      have hb : (n == ak) = false := by simp [hn]
      simp only [List.lookup_cons, hb]
      rw [if_neg hn, ih, if_neg hn]
    · subst hn
      rw [if_neg hak, if_neg hak, List.lookup_cons_self, List.lookup_cons_self]
    · rw [if_neg hak]
      have hb : (n == ak) = false := by simp [hn]
      simp only [List.lookup_cons, hb]
      exact ih

/-- Node lookup after _add_or_update_node: the target node is created or has
its privilege_tier maxed (host_id untouched); all other nodes unchanged. -/
theorem add_or_update_node_nodes_lookup (g : DiGraph) (id : String) (priv : ℚ)
    (host : String) (n : String) :
    (builder._add_or_update_node g id priv host).nodes.lookup n =
      if n = id then
        (match g.nodes.lookup id with
         | Option.none => some ⟨priv, some host⟩
         | some nd => some ⟨max nd.privilege_tier priv, nd.host_id⟩)
      else g.nodes.lookup n := by
  unfold builder._add_or_update_node
  cases hl : g.nodes.lookup id with
  | none =>
    dsimp only
    rw [List.lookup_append]
    by_cases hn : n = id
    · subst hn
      rw [hl, if_pos rfl, List.lookup_cons_self]
      rfl
    · have hb : (n == id) = false := by simp [hn]
      rw [if_neg hn]
      simp only [List.lookup_cons, hb, List.lookup_nil]
      exact Option.or_none
  | some nd =>
    dsimp only
    rw [lookup_update_assoc g.nodes id
      (fun d => { d with privilege_tier := max d.privilege_tier priv }) n]
    by_cases hn : n = id
    · subst hn
      rw [if_pos rfl, if_pos rfl, hl]
      rfl
    · rw [if_neg hn, if_neg hn]

/-- _add_or_update_node leaves the edges untouched. -/
theorem add_or_update_node_edges (g : DiGraph) (id : String) (priv : ℚ)
    (host : String) :
    (builder._add_or_update_node g id priv host).edges = g.edges := by
  unfold builder._add_or_update_node
  cases g.nodes.lookup id <;> rfl

/-- addEventEdge leaves the nodes untouched. -/
theorem addEventEdge_nodes (g : DiGraph) (e : AuthEvent) :
    (builder.addEventEdge g e).nodes = g.nodes := by
  unfold builder.addEventEdge
  cases g.edges.lookup (e.src_node_id, e.dst_node_id) <;> rfl

/-- Edge lookup after addEventEdge: the event edge is created with the event
attributes, or extended by one edge_list record; all other edges unchanged. -/
theorem addEventEdge_edges_lookup (g : DiGraph) (e : AuthEvent) (k : String × String) :
    (builder.addEventEdge g e).edges.lookup k =
      if k = (e.src_node_id, e.dst_node_id) then
        (match g.edges.lookup (e.src_node_id, e.dst_node_id) with
         | Option.none => some ⟨builder._event_attrs e, [builder._event_attrs e]⟩
         | some ed => some ⟨ed.attrs, ed.edge_list ++ [builder._event_attrs e]⟩)
      else g.edges.lookup k := by
  unfold builder.addEventEdge
  cases hl : g.edges.lookup (e.src_node_id, e.dst_node_id) with
  | none =>
    dsimp only
    rw [List.lookup_append]
    by_cases hn : k = (e.src_node_id, e.dst_node_id)
    · subst hn
      rw [hl, if_pos rfl, List.lookup_cons_self]
      rfl
    · have hb : (k == (e.src_node_id, e.dst_node_id)) = false := by simp [hn]
      rw [if_neg hn]
      simp only [List.lookup_cons, hb, List.lookup_nil]
      exact Option.or_none
  | some ed =>
    dsimp only
    rw [lookup_update_assoc g.edges (e.src_node_id, e.dst_node_id)
      (fun d => { d with edge_list := d.edge_list ++ [builder._event_attrs e] }) k]
    by_cases hn : k = (e.src_node_id, e.dst_node_id)
    · subst hn
      rw [if_pos rfl, if_pos rfl, hl]
      rfl
    · rw [if_neg hn, if_neg hn]

/-- The node key list after _add_or_update_node: unchanged on update,
extended by the new id on create. -/
theorem add_or_update_node_keys (g : DiGraph) (id : String) (priv : ℚ)
    (host : String) :
    (builder._add_or_update_node g id priv host).nodes.map Prod.fst =
      if (g.nodes.lookup id).isSome then g.nodes.map Prod.fst
      else g.nodes.map Prod.fst ++ [id] := by
  unfold builder._add_or_update_node
  cases hl : g.nodes.lookup id with
  | none =>
    simp
  | some nd =>
    simp only [Option.isSome_some, if_pos]
    rw [List.map_map]
    congr 1
    funext p
    dsimp only [Function.comp]
    split <;> rfl

/-- The edge key list after addEventEdge: unchanged on update, extended by
the event node pair on create. -/
theorem addEventEdge_keys (g : DiGraph) (e : AuthEvent) :
    (builder.addEventEdge g e).edges.map Prod.fst =
      if (g.edges.lookup (e.src_node_id, e.dst_node_id)).isSome then
        g.edges.map Prod.fst
      else g.edges.map Prod.fst ++ [(e.src_node_id, e.dst_node_id)] := by
  unfold builder.addEventEdge
  cases hl : g.edges.lookup (e.src_node_id, e.dst_node_id) with
  | none =>
    simp
  | some ed =>
    simp only [Option.isSome_some, if_pos]
    rw [List.map_map]
    congr 1
    funext p
    dsimp only [Function.comp]
    split <;> rfl

/-- load_graph over a snoc: fold the last event into the previous graph. -/
theorem load_graph_snoc (evs : List AuthEvent) (e : AuthEvent) :
    builder.load_graph (evs ++ [e]) = builder.loadStep (builder.load_graph evs) e := by
  unfold builder.load_graph
  rw [List.foldl_append]
  rfl

/-- firstTouchHost over a snoc. -/
theorem firstTouchHost_snoc (evs : List AuthEvent) (e : AuthEvent) (n : String) :
    firstTouchHost (evs ++ [e]) n =
      (firstTouchHost evs n).or
        (if e.src_node_id = n then some e.src_host_id
         else if e.dst_node_id = n then some e.dst_host_id else Option.none) := by
  unfold firstTouchHost
  rw [List.findSome?_append]
  congr 1
  simp only [List.findSome?]
  cases hfe : (if e.src_node_id = n then some e.src_host_id
      else if e.dst_node_id = n then some e.dst_host_id else (Option.none : Option String)) <;>
    rfl

/-- touchPrivileges over a snoc. -/
theorem touchPrivileges_snoc (evs : List AuthEvent) (e : AuthEvent) (n : String) :
    touchPrivileges (evs ++ [e]) n =
      touchPrivileges evs n ++
        ((if e.src_node_id = n then [e.src_privilege] else []) ++
         (if e.dst_node_id = n then [e.dst_privilege] else [])) := by
  unfold touchPrivileges
  rw [List.flatMap_append]
  simp

/-- eventsForPair over a snoc. -/
theorem eventsForPair_snoc (evs : List AuthEvent) (e : AuthEvent) (s d : String) :
    eventsForPair (evs ++ [e]) s d =
      eventsForPair evs s d ++
        (if e.src_node_id = s ∧ e.dst_node_id = d then [e] else []) := by
  unfold eventsForPair
  rw [List.filter_append]
  congr 1
  by_cases h : e.src_node_id = s ∧ e.dst_node_id = d
  · rw [if_pos h]
    simp [List.filter, h.1, h.2]
  · rw [if_neg h]
    have hb : (e.src_node_id == s && e.dst_node_id == d) = false := by
      rcases not_and_or.mp h with h1 | h1 <;> simp [h1]
    simp [List.filter, hb]

/-- Node presence and host_id characterization of load_graph: a node is in
the graph iff some event touches it, and its host_id is the one written by
the first touching event (src before dst) — first writer wins. -/
theorem load_graph_nodes_host (evs : List AuthEvent) (n : String) :
    ((builder.load_graph evs).nodes.lookup n).map NodeData.host_id =
      (firstTouchHost evs n).map some := by
  induction evs using List.reverseRecOn with
  | nil => rfl
  | append_singleton evs e ih =>
    rw [load_graph_snoc]
    unfold builder.loadStep
    simp only [addEventEdge_nodes, add_or_update_node_nodes_lookup]
    rw [firstTouchHost_snoc]
    cases hft : firstTouchHost evs n with
    | none =>
      have hA : (builder.load_graph evs).nodes.lookup n = Option.none := by
        cases hA' : (builder.load_graph evs).nodes.lookup n with
        | none => rfl
        | some nd => rw [hA', hft] at ih; simp at ih
      by_cases hdst : n = e.dst_node_id <;> by_cases hsrc : n = e.src_node_id
      · have hds : e.dst_node_id = e.src_node_id := hdst.symm.trans hsrc
        rw [if_pos hdst, if_pos hds, ← hsrc, hA]
        simp
      · have hds : ¬(e.dst_node_id = e.src_node_id) := fun hc => hsrc (hdst.trans hc)
        have h1 : ¬(e.src_node_id = n) := fun hc => hsrc hc.symm
        rw [if_pos hdst, if_neg hds, ← hdst, hA]
        simp [h1]
      · rw [if_neg hdst, if_pos hsrc, ← hsrc, hA]
        simp
      · have h1 : ¬(e.src_node_id = n) := fun hc => hsrc hc.symm
        have h2 : ¬(e.dst_node_id = n) := fun hc => hdst hc.symm
        rw [if_neg hdst, if_neg hsrc, hA]
        simp [h1, h2]
    | some y =>
      have hA : ∃ nd, (builder.load_graph evs).nodes.lookup n = some nd ∧
          nd.host_id = some y := by
        cases hA' : (builder.load_graph evs).nodes.lookup n with
        | none =>
          rw [hA', hft] at ih
          exact absurd ih (by simp)
        | some nd =>
          rw [hA', hft] at ih
          exact ⟨nd, rfl, by simpa using ih⟩
      rcases hA with ⟨nd, hA, hh⟩
      by_cases hdst : n = e.dst_node_id <;> by_cases hsrc : n = e.src_node_id
      · have hds : e.dst_node_id = e.src_node_id := hdst.symm.trans hsrc
        rw [if_pos hdst, if_pos hds, ← hsrc, hA]
        simp [hh]
      · have hds : ¬(e.dst_node_id = e.src_node_id) := fun hc => hsrc (hdst.trans hc)
        rw [if_pos hdst, if_neg hds, ← hdst, hA]
        simp [hh]
      · rw [if_neg hdst, if_pos hsrc, ← hsrc, hA]
        simp [hh]
      · rw [if_neg hdst, if_neg hsrc, hA]
        simp [hh]

/-- privMaxAcc over an append: continue folding from the accumulated max. -/
theorem privMaxAcc_append (l l2 : List ℚ) :
    privMaxAcc (l ++ l2) =
      l2.foldl (fun acc q =>
        some (match acc with | Option.none => q | some m => max m q)) (privMaxAcc l) := by
  unfold privMaxAcc
  rw [List.foldl_append]

/-- Privilege characterization of load_graph: a node carries the running
maximum of every src/dst privilege touching it. -/
theorem load_graph_nodes_priv (evs : List AuthEvent) (n : String) :
    ((builder.load_graph evs).nodes.lookup n).map NodeData.privilege_tier =
      privMaxAcc (touchPrivileges evs n) := by
  induction evs using List.reverseRecOn with
  | nil => rfl
  | append_singleton evs e ih =>
    rw [load_graph_snoc]
    unfold builder.loadStep
    simp only [addEventEdge_nodes, add_or_update_node_nodes_lookup]
    rw [touchPrivileges_snoc, privMaxAcc_append]
    cases hpm : privMaxAcc (touchPrivileges evs n) with
    | none =>
      have hA : (builder.load_graph evs).nodes.lookup n = Option.none := by
        cases hA' : (builder.load_graph evs).nodes.lookup n with
        | none => rfl
        | some nd => rw [hA', hpm] at ih; simp at ih
      by_cases hdst : n = e.dst_node_id <;> by_cases hsrc : n = e.src_node_id
      · have hds : e.dst_node_id = e.src_node_id := hdst.symm.trans hsrc
        have h2 : e.dst_node_id = n := hdst.symm
        rw [if_pos hdst, if_pos hds, ← hsrc, hA]
        simp [List.foldl, h2]
      · have hds : ¬(e.dst_node_id = e.src_node_id) := fun hc => hsrc (hdst.trans hc)
        have h1 : ¬(e.src_node_id = n) := fun hc => hsrc hc.symm
        rw [if_pos hdst, if_neg hds, ← hdst, hA]
        simp [List.foldl, h1]
      · have h2 : ¬(e.dst_node_id = n) := fun hc => hdst hc.symm
        rw [if_neg hdst, if_pos hsrc, ← hsrc, hA]
        simp [List.foldl, h2]
      · have h1 : ¬(e.src_node_id = n) := fun hc => hsrc hc.symm
        have h2 : ¬(e.dst_node_id = n) := fun hc => hdst hc.symm
        rw [if_neg hdst, if_neg hsrc, hA]
        simp [List.foldl, h1, h2]
    | some m =>
      have hA : ∃ nd, (builder.load_graph evs).nodes.lookup n = some nd ∧
          nd.privilege_tier = m := by
        cases hA' : (builder.load_graph evs).nodes.lookup n with
        | none =>
          rw [hA', hpm] at ih
          exact absurd ih (by simp)
        | some nd =>
          rw [hA', hpm] at ih
          exact ⟨nd, rfl, by simpa using ih⟩
      rcases hA with ⟨nd, hA, hh⟩
      by_cases hdst : n = e.dst_node_id <;> by_cases hsrc : n = e.src_node_id
      · have hds : e.dst_node_id = e.src_node_id := hdst.symm.trans hsrc
        have h2 : e.dst_node_id = n := hdst.symm
        rw [if_pos hdst, if_pos hds, ← hsrc, hA]
        simp [List.foldl, h2, hh]
      · have hds : ¬(e.dst_node_id = e.src_node_id) := fun hc => hsrc (hdst.trans hc)
        have h1 : ¬(e.src_node_id = n) := fun hc => hsrc hc.symm
        rw [if_pos hdst, if_neg hds, ← hdst, hA]
        simp [List.foldl, h1, hh]
      · have h2 : ¬(e.dst_node_id = n) := fun hc => hdst hc.symm
        rw [if_neg hdst, if_pos hsrc, ← hsrc, hA]
        simp [List.foldl, h2, hh]
      · have h1 : ¬(e.src_node_id = n) := fun hc => hsrc hc.symm
        have h2 : ¬(e.dst_node_id = n) := fun hc => hdst hc.symm
        rw [if_neg hdst, if_neg hsrc, hA]
        simp [List.foldl, h1, h2, hh]

/-- Edge characterization of load_graph: the (s, d) edge exists iff some
event has that node pair; its edge_list is one record per such event in
input order, and its top-level attrs come from the first such event. -/
theorem load_graph_edges_lookup (evs : List AuthEvent) (s d : String) :
    (builder.load_graph evs).edges.lookup (s, d) =
      ((eventsForPair evs s d).head?).map (fun e0 =>
        (⟨builder._event_attrs e0,
          (eventsForPair evs s d).map builder._event_attrs⟩ : EdgeData)) := by
  induction evs using List.reverseRecOn with
  | nil => rfl
  | append_singleton evs e ih =>
    rw [load_graph_snoc]
    unfold builder.loadStep
    rw [addEventEdge_edges_lookup]
    simp only [add_or_update_node_edges]
    rw [eventsForPair_snoc]
    by_cases hp : e.src_node_id = s ∧ e.dst_node_id = d
    · have hk : ((s, d) : String × String) = (e.src_node_id, e.dst_node_id) := by
        rw [hp.1, hp.2]
      rw [if_pos hk, if_pos hp, ← hk]
      cases hL : (builder.load_graph evs).edges.lookup (s, d) with
      | none =>
        rw [hL] at ih
        have hnil : eventsForPair evs s d = [] := by
          cases hE : eventsForPair evs s d with
          | nil => rfl
          | cons a t => rw [hE] at ih; simp at ih
        rw [hnil]
        simp
      | some ed =>
        rw [hL] at ih
        have hcons : ∃ e0 t, eventsForPair evs s d = e0 :: t := by
          cases hE : eventsForPair evs s d with
          | nil =>
            rw [hE] at ih
            exact absurd ih (by simp)
          | cons a t => exact ⟨a, t, rfl⟩
        rcases hcons with ⟨e0, t, hE⟩
        rw [hE] at ih ⊢
        simp only [List.head?, Option.map_some] at ih
        injection ih with ih
        rw [ih]
        simp
    · have hk : ¬(((s, d) : String × String) = (e.src_node_id, e.dst_node_id)) := by
        intro hc
        rw [Prod.mk.injEq] at hc
        exact hp ⟨hc.1.symm, hc.2.symm⟩
      rw [if_neg hk, if_neg hp]
      simpa using ih

/-- A key that looks up to none is not among the keys. -/
theorem lookup_none_not_mem_keys {α β : Type} [BEq α] [LawfulBEq α]
    (l : List (α × β)) (k : α) (h : l.lookup k = Option.none) :
    k ∉ l.map Prod.fst := by
  intro hmem
  rw [List.lookup_eq_none_iff] at h
  rcases List.mem_map.mp hmem with ⟨p, hp, hk⟩
  have hne := h p hp
  rw [← hk] at hne
  simp at hne

/-- The node keys of a built graph are pairwise distinct: each node id holds
one attribute dict. -/
theorem load_graph_nodes_keys_nodup (evs : List AuthEvent) :
    ((builder.load_graph evs).nodes.map Prod.fst).Nodup := by
  induction evs using List.reverseRecOn with
  | nil => simp [builder.load_graph]
  | append_singleton evs e ih =>
    rw [load_graph_snoc]
    unfold builder.loadStep
    rw [addEventEdge_nodes, add_or_update_node_keys, add_or_update_node_keys]
    simp only [add_or_update_node_nodes_lookup]
    by_cases hds : e.dst_node_id = e.src_node_id
    · rw [if_pos hds]
      cases hLs : (builder.load_graph evs).nodes.lookup e.src_node_id with
      | none =>
        simp [hLs, ih, List.nodup_append,
          lookup_none_not_mem_keys _ _ hLs]
      | some nd =>
        simp [hLs, ih]
    · rw [if_neg hds]
      cases hLd : (builder.load_graph evs).nodes.lookup e.dst_node_id with
      | none =>
        cases hLs : (builder.load_graph evs).nodes.lookup e.src_node_id with
        | none =>
          have hsd : ¬e.src_node_id = e.dst_node_id := fun hc => hds hc.symm
          simp [hLs, hLd, ih, List.nodup_append, hds, hsd,
            lookup_none_not_mem_keys _ _ hLs, lookup_none_not_mem_keys _ _ hLd]
        | some nd =>
          simp [hLs, hLd, ih, List.nodup_append,
            lookup_none_not_mem_keys _ _ hLd]
      | some nd =>
        cases hLs : (builder.load_graph evs).nodes.lookup e.src_node_id with
        | none =>
          simp [hLs, hLd, ih, List.nodup_append,
            lookup_none_not_mem_keys _ _ hLs]
        | some nd2 =>
          simp [hLs, hLd, ih]

/-- The edge keys of a built graph are pairwise distinct: each (src, dst)
pair holds a single edge. -/
theorem load_graph_edges_keys_nodup (evs : List AuthEvent) :
    ((builder.load_graph evs).edges.map Prod.fst).Nodup := by
  induction evs using List.reverseRecOn with
  | nil => simp [builder.load_graph]
  | append_singleton evs e ih =>
    rw [load_graph_snoc]
    unfold builder.loadStep
    rw [addEventEdge_keys]
    simp only [add_or_update_node_edges]
    cases hL : (builder.load_graph evs).edges.lookup (e.src_node_id, e.dst_node_id) with
    | none =>
      simp [hL, ih, List.nodup_append, lookup_none_not_mem_keys _ _ hL]
    | some ed =>
      simp [hL, ih]

/-- The running-max fold yields an element bounding the list (generalized
over the accumulator). -/
theorem privMaxAcc_spec (l : List ℚ) : ∀ (acc : Option ℚ) (m : ℚ),
    l.foldl (fun acc q =>
      some (match acc with | Option.none => q | some x => max x q)) acc = some m →
    (m ∈ l ∨ acc = some m) ∧ (∀ p ∈ l, p ≤ m) ∧ (∀ a, acc = some a → a ≤ m) := by
  induction l with
  | nil =>
    intro acc m h
    simp only [List.foldl_nil] at h
    refine ⟨Or.inr h, by simp, fun a ha => ?_⟩
    rw [h] at ha
    injection ha with ha
    exact le_of_eq ha.symm
  | cons q t ih =>
    intro acc m h
    rw [List.foldl_cons] at h
    cases acc with
    | none =>
      obtain ⟨hmem, hub, hacc⟩ := ih (some q) m (by exact h)
      refine ⟨?_, ?_, ?_⟩
      · rcases hmem with hm | hm
        · exact Or.inl (List.mem_cons_of_mem _ hm)
        · injection hm with hm
          exact Or.inl (hm ▸ List.mem_cons_self q t)
      · intro p hp
        rcases List.mem_cons.mp hp with hp | hp
        · subst hp
          exact hacc _ rfl
        · exact hub p hp
      · intro a ha
        exact Option.noConfusion ha
    | some x =>
      obtain ⟨hmem, hub, hacc⟩ := ih (some (max x q)) m (by exact h)
      refine ⟨?_, ?_, ?_⟩
      · rcases hmem with hm | hm
        · exact Or.inl (List.mem_cons_of_mem _ hm)
        · injection hm with hm
          rcases max_choice x q with hmax | hmax
          · exact Or.inr (by rw [← hm, hmax])
          · have hq : q = m := by rw [← hm, hmax]
            exact Or.inl (hq ▸ List.mem_cons_self q t)
      · intro p hp
        rcases List.mem_cons.mp hp with hp | hp
        · subst hp
          exact le_trans (le_max_right x p) (hacc _ rfl)
        · exact hub p hp
      · intro a ha
        injection ha with ha
        rw [← ha]
        exact le_trans (le_max_left x q) (hacc _ rfl)

/-- privMaxAcc of a nonempty fold is an element and an upper bound. -/
theorem privMaxAcc_max (l : List ℚ) (m : ℚ) (h : privMaxAcc l = some m) :
    m ∈ l ∧ ∀ p ∈ l, p ≤ m := by
  obtain ⟨hm, hub, _⟩ := privMaxAcc_spec l Option.none m h
  rcases hm with hm | hm
  · exact ⟨hm, hub⟩
  · exact absurd hm (by simp)

/-- C5: the built graph contains the src and dst node of every event; each
node carries as privilege_tier the maximum over all src/dst privileges
touching it and as host_id the host written by its first touching event
(first-writer wins); each (src, dst) pair holds one single edge whose
edge_list has one record per event of that pair in input order and whose
top-level attributes come from the first such event; node and edge keys are
duplicate-free. -/
theorem C5_load_graph_characterization (events : List AuthEvent) :
    (∀ e ∈ events,
      ((builder.load_graph events).nodes.lookup e.src_node_id).isSome = true ∧
      ((builder.load_graph events).nodes.lookup e.dst_node_id).isSome = true) ∧
    (∀ n nd, (builder.load_graph events).nodes.lookup n = some nd →
      nd.privilege_tier ∈ touchPrivileges events n ∧
      (∀ p ∈ touchPrivileges events n, p ≤ nd.privilege_tier) ∧
      nd.host_id = firstTouchHost events n) ∧
    (∀ s d, (builder.load_graph events).edges.lookup (s, d) =
      ((eventsForPair events s d).head?).map (fun e0 =>
        (⟨builder._event_attrs e0,
          (eventsForPair events s d).map builder._event_attrs⟩ : EdgeData))) ∧
    ((builder.load_graph events).nodes.map Prod.fst).Nodup ∧
    ((builder.load_graph events).edges.map Prod.fst).Nodup := by
  refine ⟨?_, ?_, fun s d => load_graph_edges_lookup events s d,
    load_graph_nodes_keys_nodup events, load_graph_edges_keys_nodup events⟩
  · intro e he
    constructor
    · have hh := load_graph_nodes_host events e.src_node_id
      cases hL : (builder.load_graph events).nodes.lookup e.src_node_id with
      | some nd => rfl
      | none =>
        rw [hL] at hh
        cases hft : firstTouchHost events e.src_node_id with
        | some y => rw [hft] at hh; simp at hh
        | none =>
          unfold firstTouchHost at hft
          rw [List.findSome?_eq_none_iff] at hft
          have hfe := hft e he
          rw [if_pos rfl] at hfe
          exact Option.noConfusion hfe
    · have hh := load_graph_nodes_host events e.dst_node_id
      cases hL : (builder.load_graph events).nodes.lookup e.dst_node_id with
      | some nd => rfl
      | none =>
        rw [hL] at hh
        cases hft : firstTouchHost events e.dst_node_id with
        | some y => rw [hft] at hh; simp at hh
        | none =>
          unfold firstTouchHost at hft
          rw [List.findSome?_eq_none_iff] at hft
          have hfe := hft e he
          by_cases hsd : e.src_node_id = e.dst_node_id
          · rw [if_pos hsd] at hfe
            exact Option.noConfusion hfe
          · rw [if_neg hsd, if_pos rfl] at hfe
            exact Option.noConfusion hfe
  · intro n nd h
    have hp := load_graph_nodes_priv events n
    rw [h] at hp
    have hmax := privMaxAcc_max (touchPrivileges events n) nd.privilege_tier hp.symm
    have hh := load_graph_nodes_host events n
    rw [h] at hh
    cases hft : firstTouchHost events n with
    | none =>
      rw [hft] at hh
      exact absurd hh (by simp)
    | some y =>
      rw [hft] at hh
      simp only [Option.map_some'] at hh
      injection hh with hh
      exact ⟨hmax.1, hmax.2, hh⟩

/-- Witness for C5 on the four chain events: the first src node is present
and the ("a|hA", "b|hB") edge matches its per-pair event record list. -/
theorem C5_load_graph_characterization_witness :
    ((builder.load_graph chainEvents).nodes.lookup "a|hA").isSome = true ∧
    (builder.load_graph chainEvents).edges.lookup ("a|hA", "b|hB") =
      ((eventsForPair chainEvents "a|hA" "b|hB").head?).map (fun e0 =>
        (⟨builder._event_attrs e0,
          (eventsForPair chainEvents "a|hA" "b|hB").map builder._event_attrs⟩ :
          EdgeData)) :=
  ⟨((C5_load_graph_characterization chainEvents).1
      ⟨"event-0", "a", "hA", "b", "hB", "ssh", 3/10, 3/10, 0, Option.none,
        "host:test", "unix_auth", "session", Option.none⟩
      (by simp [chainEvents])).1,
   (C5_load_graph_characterization chainEvents).2.2.1 "a|hA" "b|hB"⟩
